import Mathlib

/-!
Verification of the guitar-guide computer-vision core against its design
specification.  The TypeScript sources are shallowly embedded: JavaScript
numbers are modelled by exact arithmetic (the field ℚ(√2) for the geometry
pipeline, whose square roots all live there on the inputs considered, and
plain ℚ for the scoring/stability modules), arrays by lists, thrown
exceptions by `Except`, and `null`/`undefined` by `Option`.
-/

/- The core `Rat` arithmetic operations are marked irreducible, which stops
`decide` from evaluating the concrete executions below; restore their
definitional transparency (their Lean definitions are the reference
implementations, so this only re-enables evaluation). -/
set_option allowUnsafeReducibility true
attribute [semireducible] Rat.add Rat.mul Rat.inv Rat.sub Rat.neg Rat.div

namespace GuitarGuide

instance {ε α : Type} [DecidableEq ε] [DecidableEq α] : DecidableEq (Except ε α) :=
  fun x y =>
    match x, y with
    | .error a, .error b =>
      match decEq a b with
      | isTrue h => isTrue (h ▸ rfl)
      | isFalse h => isFalse fun hh => h (Except.error.inj hh)
    | .ok a, .ok b =>
      match decEq a b with
      | isTrue h => isTrue (h ▸ rfl)
      | isFalse h => isFalse fun hh => h (Except.ok.inj hh)
    | .error _, .ok _ => isFalse fun hh => Except.noConfusion hh
    | .ok _, .error _ => isFalse fun hh => Except.noConfusion hh

/-- The field ℚ(√2), represented as `a + b·√2` with `a b : ℚ`.  All numeric
values flowing through the homography / detector embedding live here; the
square roots taken by the code on the concrete inputs of this file are all
of the form `r²` or `2·r²` with `r : ℚ`, hence exactly representable. -/
structure Q2 where
  a : ℚ
  b : ℚ
  deriving DecidableEq, Repr

namespace Q2

def ofQ (q : ℚ) : Q2 := ⟨q, 0⟩

instance : OfNat Q2 n := ⟨⟨(n : ℚ), 0⟩⟩

instance : Add Q2 := ⟨fun x y => ⟨x.a + y.a, x.b + y.b⟩⟩
instance : Neg Q2 := ⟨fun x => ⟨-x.a, -x.b⟩⟩
instance : Sub Q2 := ⟨fun x y => ⟨x.a - y.a, x.b - y.b⟩⟩
instance : Mul Q2 := ⟨fun x y => ⟨x.a * y.a + 2 * x.b * y.b, x.a * y.b + x.b * y.a⟩⟩

/-- Inverse in ℚ(√2): `(a+b√2)⁻¹ = (a−b√2)/(a²−2b²)`; the denominator is zero
only for the zero element (√2 is irrational), where we return 0, matching the
convention used for division by zero in the rational model. -/
def inv (x : Q2) : Q2 :=
  let d := x.a * x.a - 2 * x.b * x.b
  if d = 0 then ⟨0, 0⟩ else ⟨x.a / d, -x.b / d⟩

instance : Div Q2 := ⟨fun x y => x * inv y⟩

/-- Sign test: `0 ≤ a + b√2`, decided exactly by case analysis and squaring. -/
def nonneg (x : Q2) : Bool :=
  if 0 ≤ x.a then
    if 0 ≤ x.b then true else decide (2 * x.b ^ 2 ≤ x.a ^ 2)
  else
    if 0 ≤ x.b then decide (x.a ^ 2 ≤ 2 * x.b ^ 2) else false

/-- Boolean `x ≤ y` on ℚ(√2). -/
def ble (x y : Q2) : Bool := nonneg (y - x)

/-- Boolean `x < y` on ℚ(√2). -/
def blt (x y : Q2) : Bool := !nonneg (x - y)

/-- `Math.abs`. -/
def abs (x : Q2) : Q2 := if nonneg x then x else -x

/-- `Math.min`. -/
def min (x y : Q2) : Q2 := if blt y x then y else x

/-- `Math.max`. -/
def max (x y : Q2) : Q2 := if blt x y then y else x

/-- Fuel-driven integer Newton iteration for square roots (structural
recursion, so the kernel can evaluate it). -/
def sqrtIter : ℕ → ℕ → ℕ → ℕ
  | 0, _, guess => guess
  | fuel + 1, n, guess =>
    let next := (guess + n / guess) / 2
    if next < guess then sqrtIter fuel n next else guess

/-- Integer square root (floor), by Newton iteration. -/
def natSqrt (n : ℕ) : ℕ := if n ≤ 1 then n else sqrtIter n n n

/-- Exact square root of a nonnegative rational when it exists. -/
def qSqrt? (q : ℚ) : Option ℚ :=
  if 0 ≤ q then
    let r : ℚ := (natSqrt q.num.toNat : ℚ) / (natSqrt q.den : ℚ)
    if r * r = q then some r else none
  else none

/-- Model of `Math.sqrt` on ℚ(√2).  It is exact (equal to the real square
root) whenever the argument is a rational square `r²` (giving `r`) or twice
one, `2·r²` (giving `r√2`); every argument on which the evaluations in this
file take a square root has one of these two shapes.  Elsewhere it returns a
junk value of 0, which no theorem below relies on. -/
def msqrt (x : Q2) : Q2 :=
  if x.b = 0 then
    match qSqrt? x.a with
    | some r => ⟨r, 0⟩
    | none =>
      match qSqrt? (x.a / 2) with
      | some r => ⟨0, r⟩
      | none => ⟨0, 0⟩
  else ⟨0, 0⟩

end Q2

/-- `{x, y}` point with exact coordinates (models `Point2D`). -/
structure Point2D where
  x : Q2
  y : Q2
  deriving DecidableEq, Repr

/-- 3×3 matrix as a row list (models the `Matrix3x3` array type, also consumed
as a plain `number[][]` by the fretboard estimator). -/
abbrev Matrix3x3 := List (List Q2)

/-- Entry access `m[i][j]` with the 0 default of out-of-range reads. -/
def matGet (m : Matrix3x3) (i j : ℕ) : Q2 := (m.getD i []).getD j 0

/-- `multiplyMatrixPoint` (homography.ts): apply a homogeneous 3×3 matrix to a
point, dividing by `w`, returning the zero point when `|w| < 1e-10`. -/
def multiplyMatrixPoint (matrix : Matrix3x3) (point : Point2D) : Point2D :=
  let x := point.x
  let y := point.y
  let a := matGet matrix 0 0
  let b := matGet matrix 0 1
  let c := matGet matrix 0 2
  let d := matGet matrix 1 0
  let e := matGet matrix 1 1
  let f := matGet matrix 1 2
  let g := matGet matrix 2 0
  let h := matGet matrix 2 1
  let i := matGet matrix 2 2
  let w := g * x + h * y + i
  if Q2.blt (Q2.abs w) (Q2.ofQ (1 / 10000000000)) then ⟨0, 0⟩
  else ⟨(a * x + b * y + c) / w, (d * x + e * y + f) / w⟩

/-- Normalization parameters returned alongside the normalized points
(the record stuffed into the 5th array slot by `normalizePoints`). -/
structure NormalizationResult where
  scaleX : Q2
  scaleY : Q2
  tx : Q2
  ty : Q2
  deriving DecidableEq, Repr

/-- `normalizePoints` (homography.ts): translate to the centroid and scale so
the mean distance from it is √2; throws on an empty input list. -/
def normalizePoints (points : List Point2D) :
    Except String (List Point2D × NormalizationResult) :=
  if points.length = 0 then .error "Cannot normalize empty point array"
  else
    let n : Q2 := Q2.ofQ (points.length : ℚ)
    let cx := (points.foldl (fun sum p => sum + p.x) 0) / n
    let cy := (points.foldl (fun sum p => sum + p.y) 0) / n
    let distances := points.map fun p =>
      Q2.msqrt ((p.x - cx) * (p.x - cx) + (p.y - cy) * (p.y - cy))
    let avgDist := (distances.foldl (fun sum d => sum + d) 0) / n
    let scale :=
      if Q2.blt (Q2.ofQ (1 / 10000000000)) avgDist then Q2.msqrt 2 / avgDist
      else 1
    let normalized := points.map fun p => Point2D.mk ((p.x - cx) * scale) ((p.y - cy) * scale)
    .ok (normalized, ⟨scale, scale, -cx * scale, -cy * scale⟩)

/-- Matrix entry read used inside Gaussian elimination. -/
def augGet (m : List (List Q2)) (i j : ℕ) : Q2 := (m.getD i []).getD j 0

/-- Partial-pivot search of `solveLinearSystem`: scan rows `k = i+1 … n−1`
keeping the row with the strictly largest `|aug[k][i]|` (ties keep the
earlier row, as the strict `>` in the source does). -/
def findPivotRow (aug : List (List Q2)) (i n : ℕ) : ℕ :=
  (List.range n).foldl
    (fun maxRow k =>
      if i + 1 ≤ k ∧ Q2.blt (Q2.abs (augGet aug maxRow i)) (Q2.abs (augGet aug k i)) = true
      then k else maxRow)
    i

/-- Swap two rows of the augmented matrix. -/
def swapRows (aug : List (List Q2)) (i j : ℕ) : List (List Q2) :=
  let ri := aug.getD i []
  let rj := aug.getD j []
  (aug.set i rj).set j ri

/-- One elimination step on row `k`: subtract `factor` times row `i` from the
entries `j = i … n` of row `k` (entries left of the pivot column are left
untouched, exactly as the source's inner loop starts at `j = i`). -/
def eliminateRow (pivotRow : List Q2) (factor : Q2) (i : ℕ) (row : List Q2) : List Q2 :=
  (List.range row.length).map fun j =>
    if i ≤ j then row.getD j 0 - factor * pivotRow.getD j 0 else row.getD j 0

/-- Forward elimination of `solveLinearSystem`, processed one pivot column at
a time; returns `none` when a pivot magnitude drops below `1e-10`, which the
source answers with the identity-coefficient fallback. -/
def forwardElim : List ℕ → List (List Q2) → ℕ → Option (List (List Q2))
  | [], aug, _ => some aug
  | i :: rest, aug, n =>
    let maxRow := findPivotRow aug i n
    let aug1 := swapRows aug i maxRow
    if Q2.blt (Q2.abs (augGet aug1 i i)) (Q2.ofQ (1 / 10000000000)) then none
    else
      let aug2 := (List.range n).foldl
        (fun (acc : List (List Q2)) k =>
          if i + 1 ≤ k then
            let factor := augGet acc k i / augGet acc i i
            acc.set k (eliminateRow (acc.getD i []) factor i (acc.getD k []))
          else acc)
        aug1
      forwardElim rest aug2 n

/-- Back substitution of `solveLinearSystem`: `x[i] = aug[i][n] − Σ_{j>i}
aug[i][j]·x[j]`, divided by the diagonal entry when its magnitude exceeds
`1e-10`. Processes rows from the bottom up; `x` holds the already-solved
suffix. -/
def backSubst (aug : List (List Q2)) (n : ℕ) : List ℕ → List Q2 → List Q2
  | [], x => x
  | i :: rest, x =>
    let si := augGet aug i n -
      ((List.range n).foldl
        (fun s j =>
          if i + 1 ≤ j then s + augGet aug i j * ((x.getD (j - i - 1) 0)) else s)
        0)
    let xi := if Q2.blt (Q2.ofQ (1 / 10000000000)) (Q2.abs (augGet aug i i))
      then si / augGet aug i i else si
    backSubst aug n rest (xi :: x)

/-- `solveLinearSystem` (homography.ts): Gaussian elimination with partial
pivoting on an `n×n` system; dimension mismatches are thrown, a near-zero
pivot yields the identity-coefficient fallback `[1,0,0,0,1,0,0,0]`. -/
def solveLinearSystem (A : List (List Q2)) (b : List Q2) :
    Except String (List Q2) :=
  let n := A.length
  if n = 0 ∨ b.length ≠ n then .error "Invalid system dimensions"
  else if A.any fun row => row.length ≠ n then .error "Row has incorrect length"
  else
    let augmented := (A.zip b).map fun rb => rb.1 ++ [rb.2]
    match forwardElim (List.range n) augmented n with
    | none => .ok [1, 0, 0, 0, 1, 0, 0, 0]
    | some aug => .ok (backSubst aug n (List.range n).reverse [])

/-- The DLT coefficient rows of `computeHomographyFromQuadrilateral`: for each
correspondence `(x,y) ↦ (u,v)` push `[x,y,1,0,0,0,−ux,−uy]` and
`[0,0,0,x,y,1,−vx,−vy]` onto `A`, and `u, v` onto `b`. -/
def buildSystem (src dst : List Point2D) : List (List Q2) × List Q2 :=
  (src.zip dst).foldl
    (fun (acc : List (List Q2) × List Q2) pq =>
      let x := pq.1.x
      let y := pq.1.y
      let u := pq.2.x
      let v := pq.2.y
      (acc.1 ++ [[x, y, 1, 0, 0, 0, -u * x, -u * y], [0, 0, 0, x, y, 1, -v * x, -v * y]],
       acc.2 ++ [u, v]))
    ([], [])

/-- Denormalization step of `computeHomographyFromQuadrilateral`: rebuild the
3×3 matrix from the 8 solved coefficients with the destination transform
applied entrywise, then compose with the inverted source transform, exactly
as the source writes it. -/
def denormalize (h : List Q2) (srcT dstT : NormalizationResult) : Matrix3x3 :=
  let hg := fun i => h.getD i 0
  let H : Matrix3x3 :=
    [[hg 0 * dstT.scaleX, hg 1 * dstT.scaleX, hg 2 * dstT.scaleX + dstT.tx],
     [hg 3 * dstT.scaleY, hg 4 * dstT.scaleY, hg 5 * dstT.scaleY + dstT.ty],
     [hg 6, hg 7, 1]]
  let invSrcT : NormalizationResult :=
    ⟨1 / srcT.scaleX, 1 / srcT.scaleY, -srcT.tx / srcT.scaleX, -srcT.ty / srcT.scaleY⟩
  [[matGet H 0 0 * invSrcT.scaleX, matGet H 0 1 * invSrcT.scaleX,
    matGet H 0 0 * invSrcT.tx + matGet H 0 1 * invSrcT.ty + matGet H 0 2],
   [matGet H 1 0 * invSrcT.scaleY, matGet H 1 1 * invSrcT.scaleY,
    matGet H 1 0 * invSrcT.tx + matGet H 1 1 * invSrcT.ty + matGet H 1 2],
   [matGet H 2 0 * invSrcT.scaleX, matGet H 2 1 * invSrcT.scaleY,
    matGet H 2 0 * invSrcT.tx + matGet H 2 1 * invSrcT.ty + matGet H 2 2]]

/-- `computeHomographyFromQuadrilateral` (homography.ts): normalize both point
sets, build and solve the 8×8 linear system, then denormalize. -/
def computeHomographyFromQuadrilateral (srcPoints dstPoints : List Point2D) :
    Except String Matrix3x3 :=
  if srcPoints.length ≠ 4 ∨ dstPoints.length ≠ 4 then
    .error "Quadrilateral homography requires 4 points"
  else
    (normalizePoints srcPoints).bind fun srcR =>
    (normalizePoints dstPoints).bind fun dstR =>
    let Ab := buildSystem srcR.1 dstR.1
    (solveLinearSystem Ab.1 Ab.2).bind fun h =>
    .ok (denormalize h srcR.2 dstR.2)

/-- `computeHomography` (homography.ts): throws unless both point lists have
exactly 4 entries, then delegates to the quadrilateral solver (the DLT `A`
matrix it assembles first is discarded by the source, and is omitted here). -/
def computeHomography (srcPoints dstPoints : List Point2D) :
    Except String Matrix3x3 :=
  if srcPoints.length ≠ 4 ∨ dstPoints.length ≠ 4 then
    .error "Homography requires exactly 4 point pairs"
  else computeHomographyFromQuadrilateral srcPoints dstPoints

/-- `projectPoints` (homography.ts). -/
def projectPoints (homography : Matrix3x3) (points : List Point2D) : List Point2D :=
  points.map fun point => multiplyMatrixPoint homography point

/-- `identityHomography` (homography.ts). -/
def identityHomography : Matrix3x3 := [[1, 0, 0], [0, 1, 0], [0, 0, 1]]

/-! ### Concrete homography inputs (from homography.test.ts) -/

/-- The four unit-square corners, in the nut-left / nut-right / fret-left /
fret-right order used by the identity test. -/
def unitSquareCorners : List Point2D := [⟨0, 0⟩, ⟨1, 0⟩, ⟨0, 1⟩, ⟨1, 1⟩]

/-- Source corners of the uniform 2× scale correspondence. -/
def scaleSrcCorners : List Point2D :=
  [⟨0, 0⟩, ⟨Q2.ofQ 100, 0⟩, ⟨0, Q2.ofQ 100⟩, ⟨Q2.ofQ 100, Q2.ofQ 100⟩]

/-- Destination corners of the uniform 2× scale correspondence. -/
def scaleDstCorners : List Point2D :=
  [⟨0, 0⟩, ⟨Q2.ofQ 200, 0⟩, ⟨0, Q2.ofQ 200⟩, ⟨Q2.ofQ 200, Q2.ofQ 200⟩]

/-- The matrix the solver returns for the identity correspondence. -/
def identityCaseMatrix : Matrix3x3 :=
  (computeHomography unitSquareCorners unitSquareCorners).toOption.getD []

/-- The matrix the solver returns for the 2× scale correspondence. -/
def scaleCaseMatrix : Matrix3x3 :=
  (computeHomography scaleSrcCorners scaleDstCorners).toOption.getD []

/-! ### Chord scoring (scoring.ts), embedded over plain ℚ
(the module takes no square roots, so ℚ(√2) is not needed here). -/

namespace Scoring

/-- `FingerAssignment` (lib/types.ts); a fingertip's assigned string, fret and
confidence.  The mapper emits integer frets, but the field is typed `number`,
so it is modelled as ℚ. -/
structure FingerAssignment where
  fingerId : ℕ
  stringIdx : ℕ
  fretIdx : ℚ
  confidence : ℚ
  position : ℚ × ℚ
  deriving DecidableEq, Repr

/-- `StringConstraint` (lib/types.ts): muted (X), open (0), or
fretted(fret, finger). -/
inductive StringConstraint where
  | muted : StringConstraint
  | openString : StringConstraint
  | fretted : ℚ → ℕ → StringConstraint
  deriving DecidableEq, Repr

/-- `ChordTemplate` (lib/types.ts): a name plus a partial map from string
index (1–6) to a constraint; absent entries mean "unconstrained". -/
structure ChordTemplate where
  name : String
  strings : ℕ → Option StringConstraint

/-- `StringMatchResult` (lib/types.ts). -/
structure StringMatchResult where
  ok : Bool
  reason : Option String
  fingerId : Option ℕ
  deriving DecidableEq, Repr

/-- `ChordMatchResult` (lib/types.ts); `perString` is the insertion-ordered
map from string index to per-string result. -/
structure ChordMatchResult where
  score : ℚ
  perString : List (ℕ × StringMatchResult)
  stabilityMs : ℚ
  deriving DecidableEq, Repr

/-- `bestFingerOnString` (scoring.ts): among fingers assigned to `stringIdx`,
return the one with the strictly highest confidence (the `reduce` keeps the
earlier element on ties); `none` when no finger is on the string.  The
leading `!fingers` null-guard of the source always passes here. -/
def bestFingerOnString (fingers : List FingerAssignment) (stringIdx : ℕ) :
    Option FingerAssignment :=
  if fingers.length = 0 then none
  else
    match fingers.filter fun f => f.stringIdx = stringIdx with
    | [] => none
    | c :: rest =>
      some (rest.foldl
        (fun best current => if best.confidence < current.confidence then current else best) c)

/-- `computeExtraFingerPenalty` (scoring.ts): each finger on a string with no
template constraint or a muted constraint adds 1 to the extra count, each
finger on a fretted string whose fret differs from the template's adds 0.5;
the penalty is `min(extraCount * 0.05, 0.2)`. -/
def computeExtraFingerPenalty (fingers : List FingerAssignment)
    (template : ChordTemplate) : ℚ :=
  let extraCount := fingers.foldl
    (fun extraCount finger =>
      match template.strings finger.stringIdx with
      | none => extraCount + 1
      | some .muted => extraCount + 1
      | some .openString => extraCount
      | some (.fretted fret _) =>
        if finger.fretIdx ≠ fret then extraCount + 5 / 10 else extraCount)
    0
  min (extraCount * (5 / 100)) (2 / 10)

/-- The body of `scoreChord`'s per-string loop (scoring.ts lines 83–133):
the score contribution and the `perString` entry for string `s`. -/
def stringEval (fingers : List FingerAssignment) (template : ChordTemplate)
    (s : ℕ) : ℚ × StringMatchResult :=
  match template.strings s with
  | none => (1, ⟨true, some "no constraint", none⟩)
  | some .muted => (6 / 10, ⟨true, some "muting not enforced", none⟩)
  | some .openString =>
    match bestFingerOnString fingers s with
    | none => (1, ⟨true, none, none⟩)
    | some observed =>
      if observed.fretIdx ≤ 0 then (1, ⟨true, none, none⟩)
      else (0, ⟨false, some "finger blocking open string", none⟩)
  | some (.fretted fret _) =>
    match bestFingerOnString fingers s with
    | none => (0, ⟨false, some "missing finger", none⟩)
    | some observed =>
      if |observed.fretIdx - fret| ≤ 5 / 10 then
        (1, ⟨true, none, some observed.fingerId⟩)
      else
        (0, ⟨false,
          some ("wrong fret (expected " ++ toString fret ++ ", got " ++
            toString observed.fretIdx ++ ")"), none⟩)

/-- `scoreChord` (scoring.ts): loop strings 1–6 accumulating score, maxScore
and per-string results, subtract the extra-finger penalty and clamp to
[0, 1].  The TS null-template guard cannot fire in this model, since a
`ChordTemplate` value always carries its strings map. -/
def scoreChord (fingers : List FingerAssignment) (template : ChordTemplate) :
    ChordMatchResult :=
  let r := [1, 2, 3, 4, 5, 6].foldl
    (fun (acc : ℚ × ℚ × List (ℕ × StringMatchResult)) s =>
      let e := stringEval fingers template s
      (acc.1 + e.1, acc.2.1 + 1, acc.2.2 ++ [(s, e.2)]))
    (0, 0, [])
  let extraPenalty := computeExtraFingerPenalty fingers template
  ⟨max 0 (min 1 (r.1 / r.2.1 - extraPenalty)), r.2.2, 0⟩

/-- `clamp` (scoring.ts). -/
def clamp (value lo hi : ℚ) : ℚ := max lo (min hi value)

/-- The `ok` bit recorded for string `s` (true when absent, which only
happens outside 1–6). -/
def perStringOk (res : ChordMatchResult) (s : ℕ) : Bool :=
  ((res.perString.lookup s).map StringMatchResult.ok).getD true

/-! Spec-side formulations (§4.7 of the spec / claim C2), written from the
spec's words for comparison against `scoreChord`. -/

/-- Raw score of §4.7: per-string satisfaction (1 for a satisfied string,
0.6 for a muted one, 0 for an unsatisfied one) summed over strings 1–6 and
divided by 6; "satisfied" is the matcher's own per-string `ok` marking. -/
def specRawScore (fingers : List FingerAssignment) (template : ChordTemplate) : ℚ :=
  (([1, 2, 3, 4, 5, 6].map fun s =>
    match template.strings s with
    | none => (1 : ℚ)
    | some .muted => 6 / 10
    | some _ => if perStringOk (scoreChord fingers template) s then 1 else 0).sum) / 6

/-- Number of fingers sitting on muted strings. -/
def fingersOnMuted (fingers : List FingerAssignment) (template : ChordTemplate) : ℕ :=
  (fingers.filter fun f =>
    match template.strings f.stringIdx with
    | some .muted => true
    | _ => false).length

/-- Number of fingers sitting on strings with no template constraint. -/
def fingersOnUnconstrained (fingers : List FingerAssignment) (template : ChordTemplate) : ℕ :=
  (fingers.filter fun f =>
    match template.strings f.stringIdx with
    | none => true
    | _ => false).length

/-- Number of fingers on fretted strings at a fret different from the
template's. -/
def fingersAtWrongFret (fingers : List FingerAssignment) (template : ChordTemplate) : ℕ :=
  (fingers.filter fun f =>
    match template.strings f.stringIdx with
    | some (.fretted fret _) => decide (f.fretIdx ≠ fret)
    | _ => false).length

/-- The extra-finger penalty exactly as claim C2 words it: 0.05 per finger on
a muted string plus 0.05 per finger on a wrong-fretted string, capped at
0.2. -/
def claimedPenaltyC2 (fingers : List FingerAssignment) (template : ChordTemplate) : ℚ :=
  min (2 / 10)
    ((5 / 100) * fingersOnMuted fingers template +
     (5 / 100) * fingersAtWrongFret fingers template)

/-- The score exactly as claim C2 words it. -/
def claimedScoreC2 (fingers : List FingerAssignment) (template : ChordTemplate) : ℚ :=
  clamp (specRawScore fingers template - claimedPenaltyC2 fingers template) 0 1

/-- The extra-finger penalty as the code actually computes it: 0.05 per
finger on a muted or unconstrained string plus 0.025 per finger on a
wrong-fretted string, capped at 0.2. -/
def amendedPenalty (fingers : List FingerAssignment) (template : ChordTemplate) : ℚ :=
  min (2 / 10)
    ((5 / 100) * (fingersOnMuted fingers template + fingersOnUnconstrained fingers template) +
     (25 / 1000) * fingersAtWrongFret fingers template)

end Scoring

/-! ### Stability tracking (ChordMatcher.ts), embedded over ℚ.
Scores arrive as raw JS numbers, which may be NaN or ±Infinity; these are
modelled explicitly since `updateStability` guards on them. -/

namespace Practice

/-- A JS `number` argument: either a finite value or one of the non-finite
specials. -/
inductive JsNum where
  | num : ℚ → JsNum
  | nan : JsNum
  | inf : JsNum
  | ninf : JsNum
  deriving DecidableEq, Repr

/-- `Number.isFinite`. -/
def JsNum.isFinite : JsNum → Bool
  | .num _ => true
  | _ => false

/-- The finite value of a `JsNum` (only read under the `isFinite` guard). -/
def JsNum.toQ : JsNum → ℚ
  | .num q => q
  | _ => 0

/-- `StabilityTracker` (ChordMatcher.ts). -/
structure StabilityTracker where
  score : ℚ
  stableMs : ℚ
  lastUpdate : ℚ
  threshold : ℚ
  requiredStableMs : ℚ
  deriving DecidableEq, Repr

/-- `createStabilityTracker` (ChordMatcher.ts); `now` stands for the
`Date.now()` call, and the source's default arguments are
`threshold = 0.85`, `requiredStableMs = 2000`. -/
def createStabilityTracker (threshold requiredStableMs now : ℚ) : StabilityTracker :=
  ⟨0, 0, now, threshold, requiredStableMs⟩

/-- `updateStability` (ChordMatcher.ts): ignore non-finite scores (the
`!tracker` and `typeof` guards collapse into the finiteness test here, since
the model's tracker is never null and every `JsNum` is a number), otherwise
accumulate `max(0, timestamp − lastUpdate)` into `stableMs` when the score
meets the threshold and reset `stableMs` to zero when it does not.  The
source mutates and returns the same object; the model returns the updated
record. -/
def updateStability (tracker : StabilityTracker) (newScore : JsNum)
    (timestamp : ℚ) : StabilityTracker :=
  if !newScore.isFinite then tracker
  else
    let dt := max 0 (timestamp - tracker.lastUpdate)
    let stableMs :=
      if tracker.threshold ≤ newScore.toQ then tracker.stableMs + dt else 0
    { tracker with stableMs := stableMs, score := newScore.toQ, lastUpdate := timestamp }

/-- `isChordStable` (ChordMatcher.ts). -/
def isChordStable (tracker : StabilityTracker) : Bool :=
  tracker.requiredStableMs ≤ tracker.stableMs

/-- Feed a sequence of `(score, timestamp)` samples through
`updateStability`. -/
def runUpdates (tracker : StabilityTracker) (calls : List (JsNum × ℚ)) :
    StabilityTracker :=
  calls.foldl (fun tr c => updateStability tr c.1 c.2) tracker

end Practice

/-! ### Line/edge detector (HoughDetector.ts), over ℚ(√2).
`Math.atan2` and `Math.round` (used only to produce the dominant angle, which
no property below depends on) are taken as parameters of the embedding. -/

/-- Stable insertion step: place `x` after every element `y` with
`le y x`. -/
def insertBy {α : Type} (le : α → α → Bool) (x : α) : List α → List α
  | [] => [x]
  | y :: ys => if le y x then y :: insertBy le x ys else x :: y :: ys

/-- Stable sort (insertion sort), modelling the JS `Array.prototype.sort`
with a numeric comparator, which is required to be stable. -/
def sortBy {α : Type} (le : α → α → Bool) (l : List α) : List α :=
  l.foldl (fun acc x => insertBy le x acc) []

/-- `Line` (lib/types.ts): a segment; `stop` models the source's `end` field
(`end` is reserved in Lean). -/
structure Line where
  start : Point2D
  stop : Point2D
  deriving DecidableEq, Repr

/-- `ImageData`: RGBA byte buffer of a `width × height` frame.  The `data`
array is always present (a JS `Uint8ClampedArray` is truthy even when
empty), so only the dimension guards of the source are representable. -/
structure ImageData where
  width : ℕ
  height : ℕ
  data : List ℕ
  deriving DecidableEq, Repr

/-- `LineDetectionResult` (HoughDetector.ts). -/
structure LineDetectionResult where
  lines : List Line
  dominantAngle : Q2
  confidence : Q2
  deriving DecidableEq, Repr

/-- `getGray` (HoughDetector.ts): mean of the R, G, B bytes at pixel (x, y),
0 when the read would fall outside the buffer (the source's `idx < 0` test
cannot fire for ℕ coordinates). -/
def getGray (data : List ℕ) (x y width : ℕ) : Q2 :=
  let idx := y * width + x
  if data.length ≤ idx * 4 + 2 then 0
  else Q2.ofQ (((data.getD (idx * 4) 0 : ℚ) + (data.getD (idx * 4 + 1) 0 : ℚ) +
    (data.getD (idx * 4 + 2) 0 : ℚ)) / 3)

/-- `detectEdges` (HoughDetector.ts) read at one pixel: the source writes
a 0-initialized `Uint8Array` and fills the interior (1 ≤ x ≤ width−2,
1 ≤ y ≤ height−2) with 255 where the Sobel magnitude exceeds 50. -/
def edgeAt (sqrt : Q2 → Q2) (img : ImageData) (x y : ℕ) : ℕ :=
  if 1 ≤ x ∧ x + 2 ≤ img.width ∧ 1 ≤ y ∧ y + 2 ≤ img.height then
    let g := fun a b => getGray img.data a b img.width
    let gx := -1 * g (x - 1) (y - 1) + 1 * g (x + 1) (y - 1) +
      -2 * g (x - 1) y + 2 * g (x + 1) y +
      -1 * g (x - 1) (y + 1) + 1 * g (x + 1) (y + 1)
    let gy := -1 * g (x - 1) (y - 1) + -2 * g x (y - 1) + -1 * g (x + 1) (y - 1) +
      1 * g (x - 1) (y + 1) + 2 * g x (y + 1) + 1 * g (x + 1) (y + 1)
    let magnitude := sqrt (gx * gx + gy * gy)
    if Q2.blt 50 magnitude then 255 else 0
  else 0

/-- The run-length scan of `detectHorizontalLines` along one row `y`: state
is (collected lines, lineStart — with −1 as the "no run" sentinel — and the
current run length); a run longer than the threshold is emitted when it ends
(and once more after the loop if still open). -/
def scanRow (edges : ℕ → ℕ → ℕ) (width : ℕ) (threshold : Q2) (y : ℕ) : List Line :=
  let step := fun (acc : List Line × ℤ × ℕ) (x : ℕ) =>
    if 128 < edges x y then
      (acc.1, if acc.2.1 = -1 then (x : ℤ) else acc.2.1, acc.2.2 + 1)
    else
      if Q2.blt threshold (Q2.ofQ (acc.2.2 : ℚ)) then
        (acc.1 ++ [⟨⟨Q2.ofQ (acc.2.1 : ℚ), Q2.ofQ (y : ℚ)⟩,
                    ⟨Q2.ofQ ((acc.2.1 + acc.2.2 : ℤ) : ℚ), Q2.ofQ (y : ℚ)⟩⟩], -1, 0)
      else (acc.1, -1, 0)
  let r := (List.range width).foldl step ([], -1, 0)
  if Q2.blt threshold (Q2.ofQ (r.2.2 : ℚ)) then
    r.1 ++ [⟨⟨Q2.ofQ (r.2.1 : ℚ), Q2.ofQ (y : ℚ)⟩,
            ⟨Q2.ofQ ((r.2.1 + r.2.2 : ℤ) : ℚ), Q2.ofQ (y : ℚ)⟩⟩]
  else r.1

/-- `detectHorizontalLines` (HoughDetector.ts): per row, runs of edge pixels
longer than 30% of the width become fret candidates. -/
def detectHorizontalLines (edges : ℕ → ℕ → ℕ) (width height : ℕ) : List Line :=
  let threshold := Q2.ofQ (width : ℚ) * Q2.ofQ (3 / 10)
  (List.range height).foldl (fun lines y => lines ++ scanRow edges width threshold y) []

/-- The column scan of `detectVerticalLines` (same run rule along column
`x`). -/
def scanCol (edges : ℕ → ℕ → ℕ) (height : ℕ) (threshold : Q2) (x : ℕ) : List Line :=
  let step := fun (acc : List Line × ℤ × ℕ) (y : ℕ) =>
    if 128 < edges x y then
      (acc.1, if acc.2.1 = -1 then (y : ℤ) else acc.2.1, acc.2.2 + 1)
    else
      if Q2.blt threshold (Q2.ofQ (acc.2.2 : ℚ)) then
        (acc.1 ++ [⟨⟨Q2.ofQ (x : ℚ), Q2.ofQ (acc.2.1 : ℚ)⟩,
                    ⟨Q2.ofQ (x : ℚ), Q2.ofQ ((acc.2.1 + acc.2.2 : ℤ) : ℚ)⟩⟩], -1, 0)
      else (acc.1, -1, 0)
  let r := (List.range height).foldl step ([], -1, 0)
  if Q2.blt threshold (Q2.ofQ (r.2.2 : ℚ)) then
    r.1 ++ [⟨⟨Q2.ofQ (x : ℚ), Q2.ofQ (r.2.1 : ℚ)⟩,
            ⟨Q2.ofQ (x : ℚ), Q2.ofQ ((r.2.1 + r.2.2 : ℤ) : ℚ)⟩⟩]
  else r.1

/-- `detectVerticalLines` (HoughDetector.ts): per column, runs of edge pixels
longer than 30% of the height become string candidates. -/
def detectVerticalLines (edges : ℕ → ℕ → ℕ) (width height : ℕ) : List Line :=
  let threshold := Q2.ofQ (height : ℚ) * Q2.ofQ (3 / 10)
  (List.range width).foldl (fun lines x => lines ++ scanCol edges height threshold x) []

/-- `estimateDominantAngle` (HoughDetector.ts): histogram the per-line
`atan2(dy, dx)` angles rounded to one decimal in an insertion-ordered map,
then take the first angle with the strictly largest count. -/
def estimateDominantAngle (atan2 : Q2 → Q2 → Q2) (round : Q2 → Q2)
    (lines : List Line) : Q2 :=
  if lines.length = 0 then 0
  else
    let angles := lines.map fun line =>
      atan2 (line.stop.y - line.start.y) (line.stop.x - line.start.x)
    let angleCounts := angles.foldl
      (fun (m : List (Q2 × ℕ)) angle =>
        let rounded := round (angle * Q2.ofQ 10) / Q2.ofQ 10
        if m.any fun kv => kv.1 = rounded then
          m.map fun kv => if kv.1 = rounded then (kv.1, kv.2 + 1) else kv
        else m ++ [(rounded, 1)])
      []
    (angleCounts.foldl
      (fun (best : ℕ × Q2) kv => if best.1 < kv.2 then (kv.2, kv.1) else best)
      (0, 0)).2

/-- `checkLineRegularity` (HoughDetector.ts): 0 for fewer than 3 lines; else
sort by `start.y` (a stable sort, as the JS sort of this comparator is),
take adjacent spacings, and return `max(0, 1 − stddev/mean)`. -/
def checkLineRegularity (sqrt : Q2 → Q2) (lines : List Line) : Q2 :=
  if lines.length < 3 then 0
  else
    let sorted := sortBy (fun (a b : Line) => Q2.ble a.start.y b.start.y) lines
    let spacings := (sorted.zip sorted.tail).map fun ab => ab.2.start.y - ab.1.start.y
    let n := Q2.ofQ (spacings.length : ℚ)
    let mean := (spacings.foldl (fun a b => a + b) 0) / n
    let variance := (spacings.foldl (fun sum s => sum + (s - mean) * (s - mean)) 0) / n
    let stdDev := sqrt variance
    Q2.max 0 (1 - stdDev / mean)

/-- `calculateConfidence` (HoughDetector.ts): 0 below 4 lines; 0.3 with fewer
than 2 axis-aligned horizontals or 3 verticals; otherwise
`min(total/20, 1) * 0.6 + regularity * 0.4`.  The `width`/`height` parameters
are unused, as in the source. -/
def calculateConfidence (sqrt : Q2 → Q2) (lines : List Line)
    (width height : ℕ) : Q2 :=
  if lines.length < 4 then 0
  else
    let horizontalLines := lines.filter fun line =>
      Q2.blt (Q2.abs (line.start.y - line.stop.y)) 5
    let verticalLines := lines.filter fun line =>
      Q2.blt (Q2.abs (line.start.x - line.stop.x)) 5
    if horizontalLines.length < 2 ∨ verticalLines.length < 3 then Q2.ofQ (3 / 10)
    else
      let lineScore := Q2.min (Q2.ofQ (lines.length : ℚ) / 20) 1
      let regularityScore := checkLineRegularity sqrt horizontalLines
      lineScore * Q2.ofQ (6 / 10) + regularityScore * Q2.ofQ (4 / 10)

/-- `detectLines` (HoughDetector.ts): edge map, horizontal then vertical run
detection, dominant angle and confidence.  The `minLineLength`/`maxLineGap`
parameters are accepted and unused, as in the source (defaults 30 and 10). -/
def detectLines (sqrt : Q2 → Q2) (atan2 : Q2 → Q2 → Q2) (round : Q2 → Q2)
    (imageData : Option ImageData) (minLineLength maxLineGap : Q2) :
    LineDetectionResult :=
  match imageData with
  | none => ⟨[], 0, 0⟩
  | some img =>
    if img.width = 0 ∨ img.height = 0 then ⟨[], 0, 0⟩
    else
      let edges := edgeAt sqrt img
      let horizontalLines := detectHorizontalLines edges img.width img.height
      let verticalLines := detectVerticalLines edges img.width img.height
      let lines := horizontalLines ++ verticalLines
      ⟨lines, estimateDominantAngle atan2 round lines,
       calculateConfidence sqrt lines img.width img.height⟩

/-! ### Fretboard localizer (FretboardEstimator.ts), over ℚ(√2).
Thrown exceptions from the homography solver propagate, so the entry points
are `Except`-valued; every internal call site passes 4-point lists, so the
error branch is in fact unreachable. -/

/-- Region of interest (`FretboardState['roi']`, lib/types.ts). -/
structure Roi where
  x : Q2
  y : Q2
  width : Q2
  height : Q2
  deriving DecidableEq, Repr

/-- The four operator-tapped calibration points. -/
structure ManualPoints where
  nutLeft : Point2D
  nutRight : Point2D
  fretLeft : Point2D
  fretRight : Point2D
  deriving DecidableEq, Repr

/-- `FretboardDetectionResult` (FretboardEstimator.ts): `FretboardState` plus
the manual-calibration flag; `roi` is absent on the early-return paths. -/
structure FretboardDetectionResult where
  homography : Option Matrix3x3
  strings : List Line
  frets : List Line
  confidence : Q2
  roi : Option Roi
  needsManualCalibration : Bool
  deriving DecidableEq, Repr

/-- `projectPointInverse` (FretboardEstimator.ts): scale the normalized point
to image space and push it through the matrix, dividing by `w` unless `|w|`
is near zero.  The `!homography` null-check is only reachable through the
`length < 3` test here, and the `|| [1,0,0]` row fallbacks cannot fire once
three rows exist; entry reads use the 0 default of `matGet`. -/
def projectPointInverse (homography : Matrix3x3) (point : Point2D)
    (width height : Q2) : Point2D :=
  if homography.length < 3 then ⟨point.x * width, point.y * height⟩
  else
    let a := matGet homography 0 0
    let b := matGet homography 0 1
    let c := matGet homography 0 2
    let d := matGet homography 1 0
    let e := matGet homography 1 1
    let f := matGet homography 1 2
    let g := matGet homography 2 0
    let h := matGet homography 2 1
    let i := matGet homography 2 2
    let x := point.x * width
    let y := point.y * height
    let w := g * x + h * y + i
    if Q2.blt (Q2.abs w) (Q2.ofQ (1 / 10000000000)) then ⟨x * a + c, y * e + f⟩
    else ⟨(x * a + y * b + c) / w, (x * d + y * e + f) / w⟩

/-- `projectStringLines` (FretboardEstimator.ts): six evenly spaced
normalized verticals mapped to image space (the `roi` parameter is unused,
as in the source). -/
def projectStringLines (homography : Matrix3x3) (roi : Option Roi)
    (width height : Q2) : List Line :=
  (List.range 6).map fun i =>
    let normalizedX := (Q2.ofQ (i : ℚ) + Q2.ofQ (1 / 2)) / 6
    ⟨projectPointInverse homography ⟨normalizedX, 0⟩ width height,
     projectPointInverse homography ⟨normalizedX, 1⟩ width height⟩

/-- Fold of `Math.min` over a list (`Math.min(...values)`); only applied to
nonempty lists, where the seed is the first element. -/
def listMin : List Q2 → Q2
  | [] => 0
  | x :: xs => xs.foldl Q2.min x

/-- Fold of `Math.max` over a list (`Math.max(...values)`). -/
def listMax : List Q2 → Q2
  | [] => 0
  | x :: xs => xs.foldl Q2.max x

/-- `estimateROI` (FretboardEstimator.ts): padded bounding box of the
detected lines, defaulting to a centered 60%×60% box when either family is
empty.  The endpoint null-filters of the source keep every line in this
model, so the second emptiness guard coincides with the first. -/
def estimateROI (horizontalLines verticalLines : List Line)
    (width height : Q2) : Roi :=
  if horizontalLines.length = 0 ∨ verticalLines.length = 0 then
    ⟨width * Q2.ofQ (2 / 10), height * Q2.ofQ (2 / 10),
     width * Q2.ofQ (6 / 10), height * Q2.ofQ (6 / 10)⟩
  else
    let minX := listMin (verticalLines.map fun l => Q2.min l.start.x l.stop.x)
    let maxX := listMax (verticalLines.map fun l => Q2.max l.start.x l.stop.x)
    let minY := listMin (horizontalLines.map fun l => Q2.min l.start.y l.stop.y)
    let maxY := listMax (horizontalLines.map fun l => Q2.max l.start.y l.stop.y)
    ⟨Q2.max 0 (minX - 10), Q2.max 0 (minY - 10),
     Q2.min width (maxX - minX + 20), Q2.min height (maxY - minY + 20)⟩

/-- `estimateHomographyFromLines` (FretboardEstimator.ts): identity fallback
for a missing ROI, too few lines, or a degenerate ROI; otherwise the
homography from the ROI corners to the unit square. -/
def estimateHomographyFromLines (horizontalLines verticalLines : List Line)
    (roi : Option Roi) (width height : Q2) : Except String Matrix3x3 :=
  match roi with
  | none => .ok identityHomography
  | some roi =>
    if horizontalLines.length < 2 ∨ verticalLines.length < 2 then
      .ok identityHomography
    else if Q2.ble roi.width 0 ∨ Q2.ble roi.height 0 ∨
        Q2.blt roi.x 0 ∨ Q2.blt roi.y 0 then
      .ok identityHomography
    else
      let sourcePoints : List Point2D :=
        [⟨roi.x, roi.y⟩, ⟨roi.x + roi.width, roi.y⟩,
         ⟨roi.x, roi.y + roi.height⟩, ⟨roi.x + roi.width, roi.y + roi.height⟩]
      let targetPoints : List Point2D := [⟨0, 0⟩, ⟨1, 0⟩, ⟨0, 1⟩, ⟨1, 1⟩]
      computeHomography sourcePoints targetPoints

/-- `detectFretPositions` (FretboardEstimator.ts): y-sorted horizontal lines
clipped to the ROI, first five kept. -/
def detectFretPositions (horizontalLines : List Line) (roi : Option Roi) :
    List Line :=
  if horizontalLines.length = 0 then []
  else
    let sorted := sortBy (fun (a b : Line) => Q2.ble a.start.y b.start.y) horizontalLines
    let filtered : List Line := match roi with
      | some roi => sorted.filter fun line =>
          Q2.ble roi.y line.start.y && Q2.ble line.start.y (roi.y + roi.height)
      | none => sorted
    filtered.take 5

/-- `projectFretLinesFromPoints` (FretboardEstimator.ts): the nut line, the
reference (3rd) fret line, and linearly extrapolated frets 1, 2, 4, 5; only
the nut when the spacing is non-positive.  The endpoint null-validation of
the source always passes in this model. -/
def projectFretLinesFromPoints (points : ManualPoints)
    (homography : Option Matrix3x3) (width height : Q2) : List Line :=
  let nut : Line := ⟨points.nutLeft, points.nutRight⟩
  let spacing := points.fretLeft.y - points.nutLeft.y
  if Q2.ble spacing 0 then [nut]
  else
    let spacingPerFret := spacing / 3
    [nut, ⟨points.fretLeft, points.fretRight⟩] ++
      ([1, 2, 4, 5].map fun i =>
        let y := points.nutLeft.y + spacingPerFret * Q2.ofQ (i : ℚ)
        ⟨⟨points.nutLeft.x, y⟩, ⟨points.nutRight.x, y⟩⟩)

/-- `estimateFromManualPoints` (FretboardEstimator.ts): homography from the
four tapped points to the unit square, fixed 0.9 confidence.  The
finiteness validation of the source always passes (ℚ(√2) values model
finite numbers only), and the `!homography` null-check is subsumed by the
`Except` bind. -/
def estimateFromManualPoints (points : ManualPoints) (width height : Q2) :
    Except String FretboardDetectionResult :=
  let targetPoints : List Point2D := [⟨0, 0⟩, ⟨1, 0⟩, ⟨0, 1⟩, ⟨1, 1⟩]
  let sourcePoints : List Point2D :=
    [points.nutLeft, points.nutRight, points.fretLeft, points.fretRight]
  (computeHomography sourcePoints targetPoints).bind fun homography =>
    .ok ⟨some homography,
         projectStringLines homography none width height,
         projectFretLinesFromPoints points (some homography) width height,
         Q2.ofQ (9 / 10), none, false⟩

/-- `estimateFretboard` (FretboardEstimator.ts): null image ⇒ empty result
with the manual flag; manual points ⇒ the manual path; otherwise run the
detector, bail out below confidence 0.6, else build ROI, homography, string
and fret lines, forwarding the detector's confidence. -/
def estimateFretboard (sqrt : Q2 → Q2) (atan2 : Q2 → Q2 → Q2) (round : Q2 → Q2)
    (imageData : Option ImageData) (manualPoints : Option ManualPoints) :
    Except String FretboardDetectionResult :=
  match imageData with
  | none => .ok ⟨none, [], [], 0, none, true⟩
  | some img =>
    match manualPoints with
    | some points =>
      estimateFromManualPoints points (Q2.ofQ (img.width : ℚ)) (Q2.ofQ (img.height : ℚ))
    | none =>
      let lineResult := detectLines sqrt atan2 round (some img) 30 10
      if Q2.blt lineResult.confidence (Q2.ofQ (6 / 10)) then
        .ok ⟨none, [], [], lineResult.confidence, none, true⟩
      else
        let width := Q2.ofQ (img.width : ℚ)
        let height := Q2.ofQ (img.height : ℚ)
        let horizontalLines := lineResult.lines.filter fun line =>
          Q2.blt (Q2.abs (line.start.y - line.stop.y)) 5
        let verticalLines := lineResult.lines.filter fun line =>
          Q2.blt (Q2.abs (line.start.x - line.stop.x)) 5
        let roi := estimateROI horizontalLines verticalLines width height
        (estimateHomographyFromLines horizontalLines verticalLines (some roi)
            width height).bind fun homography =>
          .ok ⟨some homography,
               projectStringLines homography (some roi) width height,
               detectFretPositions horizontalLines (some roi),
               lineResult.confidence, some roi,
               Q2.blt lineResult.confidence (Q2.ofQ (7 / 10))⟩

/-! ### String/fret mapper (the `mapToStringsAndFrets` module of
HoughDetector.ts), over ℚ(√2).  The body's first statement reads the
identifier `homographyMatrix`, which is declared nowhere in the module; JS
name resolution therefore throws a `ReferenceError` on every call, which the
embedding models by resolving the identifier against the bindings actually
in scope. -/

namespace Mapper

/-- A fingertip observation passed to the mapper. -/
structure Fingertip where
  fingerId : ℕ
  position : Point2D
  deriving DecidableEq, Repr

/-- The mapper's `FingerAssignment` (integer string and fret indices as
produced by `findNearestString`/`findNearestFret`). -/
structure FingerAssignment where
  fingerId : ℕ
  stringIdx : ℕ
  fretIdx : ℕ
  confidence : Q2
  position : Point2D
  deriving DecidableEq, Repr

/-- `MappingResult` (HoughDetector.ts). -/
structure MappingResult where
  assignments : List FingerAssignment
  confidence : Q2
  deriving DecidableEq, Repr

/-- `distanceToLine` (HoughDetector.ts): point-to-segment distance via the
clamped projection parameter. -/
def distanceToLine (sqrt : Q2 → Q2) (point : Point2D) (line : Line) : Q2 :=
  let dx := line.stop.x - line.start.x
  let dy := line.stop.y - line.start.y
  let length := sqrt (dx * dx + dy * dy)
  if length = 0 then
    sqrt ((point.x - line.start.x) * (point.x - line.start.x) +
      (point.y - line.start.y) * (point.y - line.start.y))
  else
    let t := Q2.max 0 (Q2.min 1
      (((point.x - line.start.x) * dx + (point.y - line.start.y) * dy) /
        (length * length)))
    let projX := line.start.x + t * dx
    let projY := line.start.y + t * dy
    sqrt ((point.x - projX) * (point.x - projX) + (point.y - projY) * (point.y - projY))

/-- `distanceToFret` (HoughDetector.ts): vertical distance to a horizontal
fret line.  The `!fret` branch (returning `Infinity`) is unreachable at the
guarded call site and is not modelled. -/
def distanceToFret (point : Point2D) (fret : Line) : Q2 :=
  Q2.abs (point.y - fret.start.y)

/-- `findNearestString` (HoughDetector.ts): 1-indexed argmin of
`distanceToLine`, earlier string on ties (`minDist` starts at `Infinity`,
modelled by `none`); the null-entry `continue` never fires in this model. -/
def findNearestString (sqrt : Q2 → Q2) (point : Point2D) (strings : List Line) : ℕ :=
  if strings.length = 0 then 1
  else
    ((List.range strings.length).foldl
      (fun (acc : Option Q2 × ℕ) i =>
        let dist := distanceToLine sqrt point (strings.getD i ⟨⟨0, 0⟩, ⟨0, 0⟩⟩)
        match acc.1 with
        | none => (some dist, i + 1)
        | some minDist =>
          if Q2.blt dist minDist then (some dist, i + 1) else acc)
      (none, 1)).2

/-- `findNearestFret` (HoughDetector.ts): index of the first fret line whose
`start.y` the point lies above, else the number of frets (0 = open). -/
def findNearestFret (point : Point2D) (frets : List Line) : ℕ :=
  if frets.length = 0 then 0
  else
    match (List.range frets.length).find? fun i =>
        Q2.blt point.y ((frets.getD i ⟨⟨0, 0⟩, ⟨0, 0⟩⟩).start.y) with
    | some i => i
    | none => frets.length

/-- One flip-check of `enforceStringOrder`: adjacent (in string order)
assignments whose finger ids are reversed relative to their strings. -/
def flipFlagged (prev curr : FingerAssignment) : Bool :=
  decide (curr.fingerId < prev.fingerId) && decide (prev.stringIdx < curr.stringIdx)

/-- `enforceStringOrder` (HoughDetector.ts): walk the assignments sorted by
string index (the JS sort copies object references, so the ×0.8 confidence
discounts land on the original array's elements, possibly twice for an
element flagged in two adjacent pairs); the order fields themselves are
never changed. -/
def enforceStringOrder (assignments : List FingerAssignment) : List FingerAssignment :=
  let n := assignments.length
  let get := fun i => assignments.getD i ⟨0, 1, 0, 0, ⟨0, 0⟩⟩
  let sortedIdx := sortBy (fun i j => decide ((get i).stringIdx ≤ (get j).stringIdx))
    (List.range n)
  let flaggedPairs := ((sortedIdx.zip sortedIdx.tail).filter
    fun ij => flipFlagged (get ij.1) (get ij.2))
  let discounts := fun i =>
    (flaggedPairs.filter fun ij => ij.1 = i ∨ ij.2 = i).length
  (List.range n).map fun i =>
    let a := get i
    { a with confidence :=
        ((List.range (discounts i)).foldl (fun c _ => c * Q2.ofQ (8 / 10)) a.confidence) }

/-- The loop body of `mapToStringsAndFrets` once a matrix value `m` is in
hand: project the fingertips, assign nearest string and fret, compute the
distance-based confidence (zero-confidence defaults when the string or fret
index is out of range), run the anti-flip pass, and average the
confidences. -/
def mapBody (sqrt : Q2 → Q2) (fingertips : List Fingertip) (m : Matrix3x3)
    (strings frets : List Line) : MappingResult :=
  let planePoints := projectPoints m (fingertips.map fun f => f.position)
  let assignments := (List.range fingertips.length).foldl
    (fun (acc : List FingerAssignment) i =>
      let planePoint := planePoints.getD i ⟨0, 0⟩
      let fingerId := (fingertips.getD i ⟨0, ⟨0, 0⟩⟩).fingerId
      let stringIdx := findNearestString sqrt planePoint strings
      let fretIdx := findNearestFret planePoint frets
      if strings.length ≤ stringIdx - 1 ∨ frets.length ≤ fretIdx then
        acc ++ [⟨fingerId, 1, 0, 0, (fingertips.getD i ⟨0, ⟨0, 0⟩⟩).position⟩]
      else
        let stringLine := strings.getD (stringIdx - 1) ⟨⟨0, 0⟩, ⟨0, 0⟩⟩
        let fretLine := frets.getD fretIdx ⟨⟨0, 0⟩, ⟨0, 0⟩⟩
        let stringDist := distanceToLine sqrt planePoint stringLine
        let fretDist := distanceToFret planePoint fretLine
        let confidence := Q2.max 0
          (1 - (stringDist / Q2.ofQ (1 / 10) + fretDist / Q2.ofQ (1 / 10)) / 2)
        acc ++ [⟨fingerId, stringIdx, fretIdx, confidence,
                 (fingertips.getD i ⟨0, ⟨0, 0⟩⟩).position⟩])
    []
  let adjusted := enforceStringOrder assignments
  ⟨adjusted,
   (adjusted.foldl (fun sum a => sum + a.confidence) 0) / Q2.ofQ (adjusted.length : ℚ)⟩

/-- The matrix-valued bindings visible inside `mapToStringsAndFrets`: its
`homography` parameter is the only one (the module declares no other
matrix-typed name, and `homographyMatrix` in particular is nowhere in
scope). -/
def matrixBindings (homography : Matrix3x3) : List (String × Matrix3x3) :=
  [("homography", homography)]

/-- JS identifier resolution: an identifier that resolves nowhere in scope
raises a `ReferenceError` when evaluated. -/
def resolveIdent (env : List (String × Matrix3x3)) (name : String) :
    Except String Matrix3x3 :=
  match env.find? fun kv => kv.1 = name with
  | some kv => .ok kv.2
  | none => .error ("ReferenceError: " ++ name ++ " is not defined")

/-- `mapToStringsAndFrets` (HoughDetector.ts): its first statement evaluates
`projectPoints(homographyMatrix as Matrix3x3, …)`, so the undeclared
identifier `homographyMatrix` is resolved before anything else; the rest of
the body (faithfully embedded as `mapBody`) runs only if that resolution
succeeds. -/
def mapToStringsAndFrets (sqrt : Q2 → Q2) (fingertips : List Fingertip)
    (homography : Matrix3x3) (strings frets : List Line)
    (imageWidth imageHeight : Q2) : Except String MappingResult :=
  (resolveIdent (matrixBindings homography) "homographyMatrix").bind fun m =>
    .ok (mapBody sqrt fingertips m strings frets)

end Mapper

/-! ### Spec-side formulations of the detector confidence (§4.2 / claim C8),
written from the spec's words for comparison against `calculateConfidence`. -/

/-- The horizontal lines of a detection result, as the spec partitions them
(≤ 5px deviation from axis-aligned). -/
def specHorizontal (lines : List Line) : List Line :=
  lines.filter fun line => Q2.blt (Q2.abs (line.start.y - line.stop.y)) 5

/-- The vertical lines, by the same 5px slope tolerance. -/
def specVertical (lines : List Line) : List Line :=
  lines.filter fun line => Q2.blt (Q2.abs (line.start.x - line.stop.x)) 5

/-- Regularity of horizontal line spacing as the spec words it:
`max(0, 1 − stddev(spacing)/mean(spacing))`, spacing computed from y-sorted
positions. -/
def specRegularity (sqrt : Q2 → Q2) (lines : List Line) : Q2 :=
  let sorted := sortBy (fun (a b : Line) => Q2.ble a.start.y b.start.y) lines
  let spacings := (sorted.zip sorted.tail).map fun ab => ab.2.start.y - ab.1.start.y
  let n := Q2.ofQ (spacings.length : ℚ)
  let mean := (spacings.foldl (fun a b => a + b) 0) / n
  let stddev := sqrt ((spacings.foldl (fun sum s => sum + (s - mean) * (s - mean)) 0) / n)
  Q2.max 0 (1 - stddev / mean)

/-- The confidence formula exactly as claim C8 states it: 0 below 4 lines,
0.3 with fewer than 2 horizontal or 3 vertical lines, else
`min(total/20, 1)·0.6 + regularity·0.4` with the regularity formula applied
unconditionally. -/
def specConfidenceClaimed (sqrt : Q2 → Q2) (lines : List Line) : Q2 :=
  if lines.length < 4 then 0
  else if (specHorizontal lines).length < 2 ∨ (specVertical lines).length < 3 then
    Q2.ofQ (3 / 10)
  else
    Q2.min (Q2.ofQ (lines.length : ℚ) / 20) 1 * Q2.ofQ (6 / 10) +
      specRegularity sqrt (specHorizontal lines) * Q2.ofQ (4 / 10)

/-- The confidence formula as the code computes it: as claimed, except that
the regularity term is 0 whenever fewer than 3 horizontal lines exist (the
`checkLineRegularity` guard). -/
def specConfidenceAmended (sqrt : Q2 → Q2) (lines : List Line) : Q2 :=
  if lines.length < 4 then 0
  else if (specHorizontal lines).length < 2 ∨ (specVertical lines).length < 3 then
    Q2.ofQ (3 / 10)
  else
    Q2.min (Q2.ofQ (lines.length : ℚ) / 20) 1 * Q2.ofQ (6 / 10) +
      (if (specHorizontal lines).length < 3 then 0
       else specRegularity sqrt (specHorizontal lines)) * Q2.ofQ (4 / 10)

/-! ### Concrete inputs used by the closed evaluations below. -/

/-- Stand-in for `Math.atan2`; its value feeds only `dominantAngle`, which no
property below reads. -/
def atanZero : Q2 → Q2 → Q2 := fun _ _ => 0

/-- Stand-in for `Math.round` on the same unused path. -/
def roundZero : Q2 → Q2 := fun q => q

/-- Gray value of pixel `i` of the first test frame: white rows 3 and 6 on
black.  Its Sobel responses are vertical only (|gy| ∈ {0, 1020}), so every
square root the detector takes on it is of a perfect square and `Q2.msqrt`
is exact throughout. -/
def grayA (i : ℕ) : ℕ := if i / 10 = 3 ∨ i / 10 = 6 then 255 else 0

/-- A 10×10 frame with horizontal stripes: the detector finds 4 horizontal
lines (rows 2, 4, 5, 7) and no vertical ones. -/
def imageA : ImageData :=
  ⟨10, 10, (List.range 100).flatMap fun i => [grayA i, grayA i, grayA i, 255]⟩

/-- Gray value of pixel `i` of the second test frame: a vertical stripe of
value 90 (columns 4–6) over a horizontal step of 120 (rows 5–9).  The Sobel
magnitudes are 4·90, 4·120 and 4·150 (a 3-4-5 triangle at the crossings), so
all square roots are again exact. -/
def grayB (i : ℕ) : ℕ :=
  (if 4 ≤ i % 10 ∧ i % 10 ≤ 6 then 90 else 0) + (if 5 ≤ i / 10 then 120 else 0)

/-- A 10×10 frame on which the detector finds exactly 2 horizontal lines
(rows 4, 5) and 4 vertical ones (columns 3, 4, 6, 7). -/
def imageB : ImageData :=
  ⟨10, 10, (List.range 100).flatMap fun i => [grayB i, grayB i, grayB i, 255]⟩

/-- Horizontal segment at height `y` from `x1` to `x2`. -/
def hLine (x1 x2 y : ℚ) : Line :=
  ⟨⟨Q2.ofQ x1, Q2.ofQ y⟩, ⟨Q2.ofQ x2, Q2.ofQ y⟩⟩

/-- Vertical segment at `x` from `y1` to `y2`. -/
def vLine (x y1 y2 : ℚ) : Line :=
  ⟨⟨Q2.ofQ x, Q2.ofQ y1⟩, ⟨Q2.ofQ x, Q2.ofQ y2⟩⟩

/-- The lines the detector reports on `imageA`. -/
def linesA : List Line := [hLine 1 9 2, hLine 1 9 4, hLine 1 9 5, hLine 1 9 7]

/-- The lines the detector reports on `imageB`. -/
def linesB : List Line :=
  [hLine 1 9 4, hLine 1 9 5, vLine 3 1 9, vLine 4 1 9, vLine 6 1 9, vLine 7 1 9]

namespace Scoring

/-- Per-string weight of the per-string loop, as §4.7 words the raw score:
1 for an unconstrained string, 0.6 for a muted one, and for open/fretted
strings 1 when satisfied (per-string `ok`) and 0 otherwise. -/
def specWeight (fingers : List FingerAssignment) (template : ChordTemplate) (s : ℕ) : ℚ :=
  match template.strings s with
  | none => 1
  | some .muted => 6 / 10
  | some _ => if (stringEval fingers template s).2.ok then 1 else 0

/-- A template with a single fretted constraint: string 1 at fret 2. -/
def oneFretTemplate : ChordTemplate :=
  ⟨"OneFret", fun s => if s = 1 then some (.fretted 2 1) else none⟩

/-- A single finger on string 1 at fret 3 — the wrong fret. -/
def wrongFretFinger : List FingerAssignment := [⟨1, 1, 3, 9 / 10, (0, 0)⟩]

/-- A template whose string 1 carries an open constraint. -/
def openTemplate : ChordTemplate :=
  ⟨"OpenOne", fun s => if s = 1 then some .openString else none⟩

/-- Two fingers on string 1: one at fret 1 with confidence 0.5, one at
fret 0 with confidence 0.9 (the higher-confidence finger is unfretted). -/
def twoFingersOnOpen : List FingerAssignment :=
  [⟨1, 1, 1, 1 / 2, (0, 0)⟩, ⟨2, 1, 0, 9 / 10, (0, 0)⟩]

/-- A single finger holding string 1 at fret 2. -/
def suppressingFinger : List FingerAssignment := [⟨2, 1, 2, 1, (0, 0)⟩]

end Scoring

/-! ## Theorems -/

/-! ### Homography solver -/

theorem normalizePoints_ok (points : List Point2D) (h : points.length ≠ 0) :
    ∃ r, normalizePoints points = Except.ok r ∧ r.1.length = points.length := by
  unfold normalizePoints
  rw [if_neg h]
  exact ⟨_, rfl, by simp⟩

theorem solveLinearSystem_ok (A : List (List Q2)) (b : List Q2)
    (h1 : A.length ≠ 0) (h2 : b.length = A.length)
    (h3 : (A.any fun row => row.length ≠ A.length) = false) :
    ∃ x, solveLinearSystem A b = Except.ok x := by
  unfold solveLinearSystem
  rw [if_neg (by simp [h1, h2]), if_neg (by simp_all)]
  cases hfe : forwardElim (List.range A.length)
      (List.map (fun rb => rb.1 ++ [rb.2]) (A.zip b)) A.length <;>
    simp only [hfe] <;> exact ⟨_, rfl⟩

theorem computeHomography_ok_of_len (src dst : List Point2D)
    (hs : src.length = 4) (hd : dst.length = 4) :
    ∃ H, computeHomography src dst = Except.ok H := by
  obtain ⟨srcR, hsrc, hslen⟩ := normalizePoints_ok src (by omega)
  obtain ⟨dstR, hdst, hdlen⟩ := normalizePoints_ok dst (by omega)
  rw [hs] at hslen; rw [hd] at hdlen
  obtain ⟨a0, a1, a2, a3, hA⟩ : ∃ a b c d, srcR.1 = [a, b, c, d] := by
    match h' : srcR.1, hslen with
    | [a, b, c, d], _ => exact ⟨a, b, c, d, rfl⟩
  obtain ⟨b0, b1, b2, b3, hB⟩ : ∃ a b c d, dstR.1 = [a, b, c, d] := by
    match h' : dstR.1, hdlen with
    | [a, b, c, d], _ => exact ⟨a, b, c, d, rfl⟩
  have hAb : ∃ x, solveLinearSystem (buildSystem srcR.1 dstR.1).1
      (buildSystem srcR.1 dstR.1).2 = Except.ok x := by
    apply solveLinearSystem_ok
    · rw [hA, hB]; simp [buildSystem, List.zip, List.foldl]
    · rw [hA, hB]; simp [buildSystem, List.zip, List.foldl]
    · rw [hA, hB]; simp [buildSystem, List.zip, List.foldl]
  obtain ⟨x, hx⟩ := hAb
  refine ⟨denormalize x srcR.2 dstR.2, ?_⟩
  unfold computeHomography computeHomographyFromQuadrilateral
  rw [if_neg (by simp [hs, hd]), if_neg (by simp [hs, hd]), hsrc, hdst]
  simp only [Except.bind, hx]

/-- C9: `computeHomography` surfaces an invalid-input error exactly when one
of the point lists does not hold 4 points, and on two 4-point lists it
returns a matrix without throwing — a near-singular system is absorbed by
the identity-coefficient fallback inside `solveLinearSystem`, never
propagated as an error. -/
theorem computeHomography_error_iff_bad_cardinality (src dst : List Point2D) :
    ((∃ e, computeHomography src dst = Except.error e)
        ↔ ¬(src.length = 4 ∧ dst.length = 4))
    ∧ ((∃ H, computeHomography src dst = Except.ok H)
        ↔ (src.length = 4 ∧ dst.length = 4)) := by
  have herr : ¬(src.length = 4 ∧ dst.length = 4) →
      computeHomography src dst = Except.error "Homography requires exactly 4 point pairs" := by
    intro h
    unfold computeHomography
    rw [if_pos (by tauto)]
  constructor
  · constructor
    · rintro ⟨e, he⟩ ⟨hs, hd⟩
      obtain ⟨H, hH⟩ := computeHomography_ok_of_len src dst hs hd
      rw [hH] at he
      exact Except.noConfusion he
    · intro h
      exact ⟨_, herr h⟩
  · constructor
    · rintro ⟨H, hH⟩
      by_contra h
      rw [herr h] at hH
      exact Except.noConfusion hH
    · rintro ⟨hs, hd⟩
      exact computeHomography_ok_of_len src dst hs hd

set_option maxRecDepth 1000000 in
/-- C5: the homography computed from the unit-square corners onto themselves
is exactly the identity matrix, so the four corners and the interior point
(0.5, 0.5) are reproduced exactly (well within the test's 0.1 tolerance). -/
theorem identity_homography_roundtrip :
    computeHomography unitSquareCorners unitSquareCorners = Except.ok identityHomography
    ∧ projectPoints identityCaseMatrix unitSquareCorners = unitSquareCorners
    ∧ multiplyMatrixPoint identityCaseMatrix ⟨Q2.ofQ (1 / 2), Q2.ofQ (1 / 2)⟩
        = ⟨Q2.ofQ (1 / 2), Q2.ofQ (1 / 2)⟩ := by
  decide

set_option maxRecDepth 1000000 in
/-- C4: on the uniform 2× scale correspondence the code's homography maps the
interior point (50, 50) to exactly (24.5, 24.5) — at distance ≥ 10 from the
(100, 100) that the claim (and the repository's own test, which requires
|x − 100| < 10) expects: the denormalization composes the inverted
transforms on the wrong sides. -/
theorem scale_homography_code_result :
    computeHomography scaleSrcCorners scaleDstCorners = Except.ok scaleCaseMatrix
    ∧ multiplyMatrixPoint scaleCaseMatrix ⟨Q2.ofQ 50, Q2.ofQ 50⟩
        = ⟨Q2.ofQ (49 / 2), Q2.ofQ (49 / 2)⟩
    ∧ Q2.ble 10 (Q2.abs (Q2.ofQ (49 / 2) - Q2.ofQ 100)) = true := by
  decide

/-! ### Chord scoring -/

namespace Scoring

theorem stringEval_score (fingers : List FingerAssignment) (template : ChordTemplate)
    (s : ℕ) : (stringEval fingers template s).1 = specWeight fingers template s := by
  unfold specWeight
  rcases h : template.strings s with _ | c
  · simp [stringEval, h]
  · cases c
    · simp [stringEval, h]
    · simp only [stringEval, h]
      rcases hb : bestFingerOnString fingers s with _ | o <;> simp only [hb]
      · rfl
      · split <;> rfl
    · simp only [stringEval, h]
      rcases hb : bestFingerOnString fingers s with _ | o <;> simp only [hb]
      · rfl
      · split <;> rfl

theorem extraCount_fold (template : ChordTemplate) (l : List FingerAssignment) :
    ∀ c : ℚ,
      l.foldl
        (fun extraCount finger =>
          match template.strings finger.stringIdx with
          | none => extraCount + 1
          | some .muted => extraCount + 1
          | some .openString => extraCount
          | some (.fretted fret _) =>
            if finger.fretIdx ≠ fret then extraCount + 5 / 10 else extraCount)
        c
      = c + fingersOnMuted l template + fingersOnUnconstrained l template
          + (fingersAtWrongFret l template) / 2 := by
  induction l with
  | nil => intro c; simp [fingersOnMuted, fingersOnUnconstrained, fingersAtWrongFret]
  | cons f l ih =>
    intro c
    simp only [List.foldl_cons]
    rcases h : template.strings f.stringIdx with _ | cst
    · simp only [fingersOnMuted, fingersOnUnconstrained, fingersAtWrongFret,
        List.filter_cons, h]
      rw [ih]
      simp [fingersOnMuted, fingersOnUnconstrained, fingersAtWrongFret]
      push_cast
      ring
    · cases cst with
      | muted =>
        simp only [fingersOnMuted, fingersOnUnconstrained, fingersAtWrongFret,
          List.filter_cons, h]
        rw [ih]
        simp [fingersOnMuted, fingersOnUnconstrained, fingersAtWrongFret]
        push_cast
        ring
      | openString =>
        simp only [fingersOnMuted, fingersOnUnconstrained, fingersAtWrongFret,
          List.filter_cons, h]
        rw [ih]
        simp [fingersOnMuted, fingersOnUnconstrained, fingersAtWrongFret]
      | fretted fret fg =>
        simp only [fingersOnMuted, fingersOnUnconstrained, fingersAtWrongFret,
          List.filter_cons, h]
        rw [ih]
        by_cases hf : f.fretIdx = fret
        · simp [hf, fingersOnMuted, fingersOnUnconstrained, fingersAtWrongFret]
        · simp [hf, fingersOnMuted, fingersOnUnconstrained, fingersAtWrongFret]
          push_cast
          ring

theorem penalty_eq (fingers : List FingerAssignment) (template : ChordTemplate) :
    computeExtraFingerPenalty fingers template = amendedPenalty fingers template := by
  unfold computeExtraFingerPenalty amendedPenalty
  rw [extraCount_fold template fingers 0, min_comm]
  ring_nf

end Scoring

/-- C2 (counterexample): with a lone finger at the wrong fret of the only
fretted string, the code scores 97/120 (the wrong-fret finger costs 0.025)
while the claimed formula — 0.05 per wrong-fret finger — yields 94/120. -/
theorem scoreChord_claimed_penalty_counterexample :
    (Scoring.scoreChord Scoring.wrongFretFinger Scoring.oneFretTemplate).score = 97 / 120
    ∧ Scoring.claimedScoreC2 Scoring.wrongFretFinger Scoring.oneFretTemplate = 94 / 120
    ∧ (Scoring.scoreChord Scoring.wrongFretFinger Scoring.oneFretTemplate).score
        ≠ Scoring.claimedScoreC2 Scoring.wrongFretFinger Scoring.oneFretTemplate := by
  decide

/-- C2 (amended): for every finger list and template, the final score is
`clamp(raw − penalty, 0, 1)` with the claimed raw score, but the penalty is
`min(0.2, 0.05·(fingers on muted or unconstrained strings) +
0.025·(fingers on wrong-fretted strings))` — half the claimed coefficient
for wrong frets, and unconstrained strings counted alongside muted ones. -/
theorem scoreChord_score_formula (fingers : List Scoring.FingerAssignment)
    (template : Scoring.ChordTemplate) :
    (Scoring.scoreChord fingers template).score
      = Scoring.clamp (Scoring.specRawScore fingers template
          - Scoring.amendedPenalty fingers template) 0 1 := by
  have hp1 : Scoring.perStringOk (Scoring.scoreChord fingers template) 1
      = (Scoring.stringEval fingers template 1).2.ok := rfl
  have hp2 : Scoring.perStringOk (Scoring.scoreChord fingers template) 2
      = (Scoring.stringEval fingers template 2).2.ok := rfl
  have hp3 : Scoring.perStringOk (Scoring.scoreChord fingers template) 3
      = (Scoring.stringEval fingers template 3).2.ok := rfl
  have hp4 : Scoring.perStringOk (Scoring.scoreChord fingers template) 4
      = (Scoring.stringEval fingers template 4).2.ok := rfl
  have hp5 : Scoring.perStringOk (Scoring.scoreChord fingers template) 5
      = (Scoring.stringEval fingers template 5).2.ok := rfl
  have hp6 : Scoring.perStringOk (Scoring.scoreChord fingers template) 6
      = (Scoring.stringEval fingers template 6).2.ok := rfl
  rw [← Scoring.penalty_eq]
  simp only [Scoring.specRawScore, List.map, List.sum, List.foldr]
  rw [hp1, hp2, hp3, hp4, hp5, hp6]
  simp only [Scoring.scoreChord, Scoring.clamp, List.foldl]
  rw [Scoring.stringEval_score fingers template 1, Scoring.stringEval_score fingers template 2,
    Scoring.stringEval_score fingers template 3, Scoring.stringEval_score fingers template 4,
    Scoring.stringEval_score fingers template 5, Scoring.stringEval_score fingers template 6]
  simp only [Scoring.specWeight]
  ring_nf

/-- C6 (counterexample): with two fingers on an open string — fret 1 at
confidence 0.5 and fret 0 at confidence 0.9 — a finger with fret ≥ 1 maps to
the string, yet the code marks it `ok = true`, because only the
highest-confidence finger is consulted. -/
theorem open_string_some_finger_counterexample :
    Scoring.perStringOk (Scoring.scoreChord Scoring.twoFingersOnOpen Scoring.openTemplate) 1 = true
    ∧ ∃ f ∈ Scoring.twoFingersOnOpen, f.stringIdx = 1 ∧ (1 : ℚ) ≤ f.fretIdx := by
  decide

/-- C6 (amended): an open-constrained string (1–6) is marked `ok = false`
exactly when the highest-confidence finger on it has a positive fret; with
no finger, or a best finger at fret ≤ 0, it is marked `ok = true`. -/
theorem open_string_ok_iff_best_finger_fretted
    (fingers : List Scoring.FingerAssignment) (template : Scoring.ChordTemplate)
    (s : ℕ) (hs1 : 1 ≤ s) (hs6 : s ≤ 6)
    (hopen : template.strings s = some .openString) :
    (Scoring.perStringOk (Scoring.scoreChord fingers template) s = false
      ↔ ∃ f, Scoring.bestFingerOnString fingers s = some f ∧ 0 < f.fretIdx) := by
  have key : ∀ hp : Scoring.perStringOk (Scoring.scoreChord fingers template) s
        = (Scoring.stringEval fingers template s).2.ok,
      (Scoring.perStringOk (Scoring.scoreChord fingers template) s = false
        ↔ ∃ f, Scoring.bestFingerOnString fingers s = some f ∧ 0 < f.fretIdx) := by
    intro hp
    rw [hp]
    simp only [Scoring.stringEval, hopen]
    rcases hb : Scoring.bestFingerOnString fingers s with _ | o
    · simp
    · simp only [hb, Option.some.injEq]
      by_cases hf : o.fretIdx ≤ 0
      · rw [if_pos hf]
        refine iff_of_false (by simp) ?_
        rintro ⟨f, hfe, hpos⟩
        rw [← hfe] at hpos
        linarith
      · rw [if_neg hf]
        exact iff_of_true rfl ⟨o, rfl, by linarith [not_le.mp hf]⟩
  interval_cases s <;> exact key rfl

/-- Witness for C6 (amended): a lone finger at fret 2 on the open string 1;
both sides of the equivalence hold. -/
theorem open_string_ok_iff_best_finger_fretted_witness :
    (Scoring.perStringOk (Scoring.scoreChord Scoring.suppressingFinger Scoring.openTemplate) 1 = false
      ↔ ∃ f, Scoring.bestFingerOnString Scoring.suppressingFinger 1 = some f ∧ 0 < f.fretIdx) :=
  open_string_ok_iff_best_finger_fretted Scoring.suppressingFinger Scoring.openTemplate 1
    (by decide) (by decide) (by decide)

/-! ### Stability tracker -/

namespace Practice

theorem runUpdates_accum (rest : List (ℚ × ℚ)) :
    ∀ tr : StabilityTracker,
      (∀ c ∈ rest, tr.threshold ≤ c.1) →
      List.Chain (fun a b : ℚ => a < b) tr.lastUpdate (rest.map Prod.snd) →
      (runUpdates tr (rest.map fun c => (JsNum.num c.1, c.2))).stableMs
          = tr.stableMs + ((rest.map Prod.snd).getLastD tr.lastUpdate - tr.lastUpdate)
        ∧ (runUpdates tr (rest.map fun c => (JsNum.num c.1, c.2))).requiredStableMs
          = tr.requiredStableMs := by
  induction rest with
  | nil => intro tr _ _; simp [runUpdates]
  | cons c rest ih =>
    intro tr hsc hch
    rw [List.map_cons, List.chain_cons] at hch
    obtain ⟨hlt, hch'⟩ := hch
    have hθ : tr.threshold ≤ c.1 := hsc c (List.mem_cons_self c rest)
    set tr1 : StabilityTracker :=
      { tr with stableMs := tr.stableMs + (c.2 - tr.lastUpdate),
                score := c.1, lastUpdate := c.2 } with htr1
    have hstep : updateStability tr (JsNum.num c.1) c.2 = tr1 := by
      simp [updateStability, JsNum.isFinite, JsNum.toQ, hθ, htr1,
        max_eq_right (by linarith : (0:ℚ) ≤ c.2 - tr.lastUpdate)]
    have hrw : runUpdates tr ((c :: rest).map fun c => (JsNum.num c.1, c.2))
        = runUpdates tr1 (rest.map fun c => (JsNum.num c.1, c.2)) := by
      simp [runUpdates, hstep]
    rw [hrw]
    have hsc1 : ∀ c' ∈ rest, tr1.threshold ≤ c'.1 := by
      intro c' hc'
      simpa [htr1] using hsc c' (List.mem_cons_of_mem c hc')
    have hch1 : List.Chain (fun a b : ℚ => a < b) tr1.lastUpdate (rest.map Prod.snd) := by
      simpa [htr1] using hch'
    obtain ⟨ih1, ih2⟩ := ih tr1 hsc1 hch1
    refine ⟨?_, by simpa [htr1] using ih2⟩
    rw [ih1, List.map_cons, List.getLastD_cons]
    simp only [htr1]
    ring

end Practice

/-- C7: on a tracker with threshold 0.85 and required duration 2000 ms, a
run of strictly-increasing-timestamp updates whose scores all meet the
threshold and whose last timestamp is ≥ 2000 ms past the first leaves the
chord stable; and a single finite below-threshold score resets the
accumulated duration to zero. -/
theorem stability_hold_and_reset :
    (∀ (tr : Practice.StabilityTracker) (calls : List (ℚ × ℚ)),
        tr.threshold = 85 / 100 → tr.requiredStableMs = 2000 → 0 ≤ tr.stableMs →
        calls ≠ [] →
        List.Chain' (fun a b : ℚ => a < b) (calls.map Prod.snd) →
        (∀ c ∈ calls, 85 / 100 ≤ c.1) →
        2000 ≤ (calls.map Prod.snd).getLastD 0 - (calls.map Prod.snd).headD 0 →
        Practice.isChordStable
          (Practice.runUpdates tr (calls.map fun c => (Practice.JsNum.num c.1, c.2))) = true)
    ∧ (∀ (tr : Practice.StabilityTracker) (s t : ℚ), s < tr.threshold →
        (Practice.updateStability tr (Practice.JsNum.num s) t).stableMs = 0) := by
  constructor
  · intro tr calls hθ hreq h0 hne hch hsc hspan
    obtain ⟨c0, rest, rfl⟩ : ∃ a l, calls = a :: l := by
      cases calls
      · exact absurd rfl hne
      · exact ⟨_, _, rfl⟩
    have hθ0 : tr.threshold ≤ c0.1 := by
      rw [hθ]; exact hsc c0 (List.mem_cons_self c0 rest)
    set tr1 : Practice.StabilityTracker :=
      { tr with stableMs := tr.stableMs + max 0 (c0.2 - tr.lastUpdate),
                score := c0.1, lastUpdate := c0.2 } with htr1
    have hstep : Practice.updateStability tr (Practice.JsNum.num c0.1) c0.2 = tr1 := by
      simp [Practice.updateStability, Practice.JsNum.isFinite, Practice.JsNum.toQ, hθ0, htr1]
    have hch2 : List.Chain (fun a b : ℚ => a < b) tr1.lastUpdate (rest.map Prod.snd) := by
      rw [List.map_cons] at hch
      simpa [htr1] using hch
    have hsc1 : ∀ c' ∈ rest, tr1.threshold ≤ c'.1 := by
      intro c' hc'
      simpa [htr1, hθ] using hsc c' (List.mem_cons_of_mem c0 hc')
    obtain ⟨acc1, acc2⟩ := Practice.runUpdates_accum rest tr1 hsc1 hch2
    have hrw : Practice.runUpdates tr
          ((c0 :: rest).map fun c => (Practice.JsNum.num c.1, c.2))
        = Practice.runUpdates tr1 (rest.map fun c => (Practice.JsNum.num c.1, c.2)) := by
      simp [Practice.runUpdates, hstep]
    rw [hrw]
    rw [List.map_cons, List.getLastD_cons, List.headD_cons] at hspan
    simp only [Practice.isChordStable, acc2, decide_eq_true_eq]
    rw [acc1]
    have hmax : (0:ℚ) ≤ max 0 (c0.2 - tr.lastUpdate) := le_max_left 0 _
    simp only [htr1]
    rw [hreq]
    linarith
  · intro tr s t hlt
    simp [Practice.updateStability, Practice.JsNum.isFinite, Practice.JsNum.toQ,
      not_le.mpr hlt]

/-- Witness for C7: a fresh tracker fed scores 0.9 and 1 at timestamps 1000
and 3001 ms (2001 ms apart) is stable, and feeding 0 resets `stableMs`. -/
theorem stability_hold_and_reset_witness :
    Practice.isChordStable
      (Practice.runUpdates (Practice.createStabilityTracker (85 / 100) 2000 0)
        ([((9 : ℚ) / 10, (1000 : ℚ)), (1, 3001)].map
          fun c => (Practice.JsNum.num c.1, c.2))) = true
    ∧ (Practice.updateStability (Practice.createStabilityTracker (85 / 100) 2000 0)
        (Practice.JsNum.num 0) 5).stableMs = 0 := by
  constructor
  · exact stability_hold_and_reset.1 (Practice.createStabilityTracker (85 / 100) 2000 0)
      [((9 : ℚ) / 10, (1000 : ℚ)), (1, 3001)] rfl rfl
      (by norm_num [Practice.createStabilityTracker]) (by simp)
      (by simp [List.chain'_cons]; norm_num)
      (by intro c hc; fin_cases hc <;> norm_num)
      (by simp [List.getLastD]; norm_num)
  · exact stability_hold_and_reset.2 (Practice.createStabilityTracker (85 / 100) 2000 0)
      0 5 (by norm_num [Practice.createStabilityTracker])

/-- C10: a non-finite score (NaN or ±Infinity) leaves the tracker entirely
unchanged — `stableMs`, `score` and `lastUpdate` keep their prior values. -/
theorem updateStability_nonfinite_noop (tr : Practice.StabilityTracker)
    (s : Practice.JsNum) (t : ℚ) (h : s.isFinite = false) :
    Practice.updateStability tr s t = tr := by
  simp [Practice.updateStability, h]

/-- Witness for C10: updating a fresh tracker with NaN at time 123 returns
it unchanged. -/
theorem updateStability_nonfinite_noop_witness :
    Practice.updateStability (Practice.createStabilityTracker (85 / 100) 2000 0)
        Practice.JsNum.nan 123
      = Practice.createStabilityTracker (85 / 100) 2000 0
    ∧ Practice.JsNum.nan.isFinite = false :=
  ⟨updateStability_nonfinite_noop (Practice.createStabilityTracker (85 / 100) 2000 0)
      Practice.JsNum.nan 123 rfl, rfl⟩

/-! ### Line detector and fretboard localizer -/

theorem calculateConfidence_eq_spec (sqrt : Q2 → Q2) (lines : List Line) (w h : ℕ) :
    calculateConfidence sqrt lines w h = specConfidenceAmended sqrt lines := by
  unfold calculateConfidence specConfidenceAmended specHorizontal specVertical
    checkLineRegularity specRegularity
  rfl

set_option maxRecDepth 1000000 in
theorem detectLines_imageA_eq :
    detectLines Q2.msqrt atanZero roundZero (some imageA) 30 10
      = ⟨linesA, 0, Q2.ofQ (3 / 10)⟩ := by decide

set_option maxRecDepth 1000000 in
theorem detectLines_imageB_eq :
    detectLines Q2.msqrt atanZero roundZero (some imageB) 30 10
      = ⟨linesB, 0, Q2.ofQ (9 / 50)⟩ := by decide

/-- C8 (counterexample): on a frame with exactly 2 horizontal and 4 vertical
detected lines the code reports confidence 0.18 (the regularity term is
zeroed below 3 horizontal lines), while the claimed formula — regularity
applied unconditionally — gives 0.58. -/
theorem detector_confidence_claimed_counterexample :
    (detectLines Q2.msqrt atanZero roundZero (some imageB) 30 10).confidence
      = Q2.ofQ (9 / 50)
    ∧ specConfidenceClaimed Q2.msqrt
        (detectLines Q2.msqrt atanZero roundZero (some imageB) 30 10).lines
      = Q2.ofQ (29 / 50)
    ∧ (Q2.ofQ (9 / 50) : Q2) ≠ Q2.ofQ (29 / 50) := by
  refine ⟨by rw [detectLines_imageB_eq], ?_, by decide⟩
  rw [detectLines_imageB_eq]
  decide

/-- C8 (amended): for every nonempty frame, the detector's confidence is 0
below 4 total lines, 0.3 with fewer than 2 horizontal or 3 vertical lines,
and otherwise `min(total/20, 1)·0.6 + regularity·0.4` — where the regularity
term `max(0, 1 − stddev/mean)` over the y-sorted horizontal spacings is
replaced by 0 whenever fewer than 3 horizontal lines were found. -/
theorem detector_confidence_formula (sqrt : Q2 → Q2) (atan2 : Q2 → Q2 → Q2)
    (round : Q2 → Q2) (img : ImageData) (minLineLength maxLineGap : Q2)
    (hw : img.width ≠ 0) (hh : img.height ≠ 0) :
    (detectLines sqrt atan2 round (some img) minLineLength maxLineGap).confidence
      = specConfidenceAmended sqrt
          (detectLines sqrt atan2 round (some img) minLineLength maxLineGap).lines := by
  simp only [detectLines]
  rw [if_neg (by simp [hw, hh])]
  simpa using calculateConfidence_eq_spec sqrt _ img.width img.height

/-- Witness for C8 (amended): the formula evaluated on the striped test
frame. -/
theorem detector_confidence_formula_witness :
    (detectLines Q2.msqrt atanZero roundZero (some imageA) 30 10).confidence
      = specConfidenceAmended Q2.msqrt
          (detectLines Q2.msqrt atanZero roundZero (some imageA) 30 10).lines :=
  detector_confidence_formula Q2.msqrt atanZero roundZero imageA 30 10
    (by decide) (by decide)

/-- C3 (counterexample): on a frame where the detector reports confidence
0.3 (< 0.6), the automatic path of `estimateFretboard` returns that same
0.3 — with the null homography and the manual-calibration flag — not the
zero confidence the claim states. -/
theorem estimateFretboard_low_confidence_counterexample :
    estimateFretboard Q2.msqrt atanZero roundZero (some imageA) none
      = Except.ok ⟨none, [], [], Q2.ofQ (3 / 10), none, true⟩
    ∧ Q2.blt (detectLines Q2.msqrt atanZero roundZero (some imageA) 30 10).confidence
        (Q2.ofQ (6 / 10)) = true
    ∧ Q2.ofQ (3 / 10) ≠ (0 : Q2) := by
  refine ⟨?_, ?_, by decide⟩
  · simp only [estimateFretboard]
    rw [detectLines_imageA_eq]
    decide
  · rw [detectLines_imageA_eq]
    decide

/-- C3 (amended): whenever the detector's confidence on a non-null image is
below 0.6, the automatic path returns a null homography, empty string and
fret lists, the manual-calibration flag set — and the detector's confidence
itself, not zero. -/
theorem estimateFretboard_forwards_low_confidence (sqrt : Q2 → Q2)
    (atan2 : Q2 → Q2 → Q2) (round : Q2 → Q2) (img : ImageData)
    (h : Q2.blt (detectLines sqrt atan2 round (some img) 30 10).confidence
      (Q2.ofQ (6 / 10)) = true) :
    estimateFretboard sqrt atan2 round (some img) none
      = Except.ok ⟨none, [], [],
          (detectLines sqrt atan2 round (some img) 30 10).confidence, none, true⟩ := by
  simp only [estimateFretboard]
  rw [if_pos h]

/-- Witness for C3 (amended): the low-confidence early return on the striped
test frame. -/
theorem estimateFretboard_forwards_low_confidence_witness :
    estimateFretboard Q2.msqrt atanZero roundZero (some imageA) none
      = Except.ok ⟨none, [], [],
          (detectLines Q2.msqrt atanZero roundZero (some imageA) 30 10).confidence,
          none, true⟩ :=
  estimateFretboard_forwards_low_confidence Q2.msqrt atanZero roundZero imageA
    (by rw [detectLines_imageA_eq]; decide)

/-! ### String/fret mapper -/

/-- C1: every call of `mapToStringsAndFrets` evaluates the undeclared
identifier `homographyMatrix` (its parameter is named `homography`) before
anything else, so every call, whatever the fingertips, matrix, lines and
image dimensions, ends in a ReferenceError and the advertised
`{assignments, confidence}` result is unreachable. -/
theorem mapper_reference_error_on_every_call (sqrt : Q2 → Q2)
    (fingertips : List Mapper.Fingertip) (homography : Matrix3x3)
    (strings frets : List Line) (imageWidth imageHeight : Q2) :
    Mapper.mapToStringsAndFrets sqrt fingertips homography strings frets
        imageWidth imageHeight
      = Except.error "ReferenceError: homographyMatrix is not defined" := rfl

end GuitarGuide
